import Mathlib

/-!
Verification of the event-correlation and enrichment pipeline of
`prob_report.py` (`clean_data` and its inner helpers).  The pipeline is
embedded shallowly: a pandas DataFrame of event records becomes a
`List RawEvent`; each stage of `clean_data` becomes a Lean function on
lists; the fallible `astype(int)` coercions become `Except`-valued
functions.  Raw field values arrive from the Zabbix API as strings, so
`clock` fields are kept as strings until the `astype(int)` stage; the
`eventid`/`r_eventid` join keys are modelled as `Nat` (the join compares
the decimal strings for equality, which agrees with `Nat` equality on
canonical numerals).  The ten columns dropped immediately by
`dataframe.drop` (acknowledged, c_eventid, correlationid, ns, object,
objectid, source, suppressed, userid, value) are never read afterwards
and are omitted from the record model.
-/

/-- The apostrophe character, written via its code point. -/
def squote : Char := Char.ofNat 39

/-- Left curly brace character. -/
def lbrace : Char := Char.ofNat 123

/-- Right curly brace character. -/
def rbrace : Char := Char.ofNat 125

/-- Python `str.strip(chars)` on a character list: remove leading and
trailing characters belonging to `strip`. -/
def stripChars (cs : List Char) (strip : List Char) : List Char :=
  ((cs.dropWhile (· ∈ strip)).reverse.dropWhile (· ∈ strip)).reverse

/-- Split off the first `sep`-separated token: returns the token and,
when a separator was found, the remainder after it. -/
def splitFirst (sep : Char) : List Char → List Char × Option (List Char)
  | [] => ([], none)
  | c :: rest =>
    if c = sep then ([], some rest)
    else
      let r := splitFirst sep rest
      (c :: r.1, r.2)

/-- Python `str.split(sep, n)`: split on single occurrences of `sep`,
performing at most `n` splits, so at most `n + 1` tokens result and the
last token keeps any remaining separators. -/
def pySplitN (sep : Char) : Nat → List Char → List (List Char)
  | 0, cs => [cs]
  | n + 1, cs =>
    match splitFirst sep cs with
    | (t, none) => [t]
    | (t, some rest) => t :: pySplitN sep n rest

/-- Decimal digit value of a character, if it is a digit. -/
def digitVal? (c : Char) : Option Nat :=
  if '0' ≤ c ∧ c ≤ '9' then some (c.toNat - '0'.toNat) else none

/-- Value of a nonempty string of decimal digits. -/
def decimalVal? (cs : List Char) : Option Nat :=
  match cs with
  | [] => none
  | _ =>
    cs.foldl
      (fun acc c =>
        match acc, digitVal? c with
        | some a, some d => some (a * 10 + d)
        | _, _ => none)
      (some 0)

/-- Python `int(s)` for a decimal string with an optional sign, as used
by `astype(int)` on a string column: `some` of the integer value when
the string is coercible, `none` otherwise. -/
def pyInt? (s : String) : Option Int :=
  match s.toList with
  | '-' :: rest => (decimalVal? rest).map (fun n => -(n : Int))
  | '+' :: rest => (decimalVal? rest).map (fun n => (n : Int))
  | cs => (decimalVal? cs).map (fun n => (n : Int))

/-- One Zabbix host descriptor, as returned by `event.get` with
`selectHosts=["host"]`: a dict with keys `hostid` and `host` (the
display name), in that insertion order. -/
structure Host where
  hostid : String
  host : String
deriving Repr, DecidableEq

/-- Python `str()` of one host dict, for values that contain no
apostrophe, backslash or non-printable character (Python `repr` would
choose a different quoting for those). -/
def hostDictChars (h : Host) : List Char :=
  [lbrace, squote] ++ "hostid".toList ++ [squote, ':', ' ', squote] ++
    h.hostid.toList ++ [squote, ',', ' ', squote] ++ "host".toList ++
    [squote, ':', ' ', squote] ++ h.host.toList ++ [squote, rbrace]

/-- Python `str()` of the `hosts` list of dicts. -/
def hostsReprChars (hs : List Host) : List Char :=
  '[' :: List.intercalate (", ".toList) (hs.map hostDictChars) ++ [']']

/-- One raw event record after the initial column drop: exactly the
fields `clean_data` goes on to read.  `r_eventid` is `none` when the
field is absent (NaN in the frame); the Zabbix value `"0"` for an
unresolved problem is `some 0`. -/
structure RawEvent where
  eventid : Nat
  clock : String
  r_eventid : Option Nat
  severity : String
  hosts : List Host
  name : String
deriving Repr, DecidableEq

/-- A row of `adjusted_frame`: a record whose `r_eventid` joined, now
carrying the matched resolution clock `r_clock`. -/
structure MergedEvent where
  eventid : Nat
  clock : String
  r_eventid : Nat
  severity : String
  hosts : List Host
  name : String
  r_clock : String
deriving Repr, DecidableEq

/-- A row after `create_resolved_time`: clocks coerced to integers and
the duration column `rts_clock = r_clock - clock` added. -/
structure ResolvedEvent where
  eventid : Nat
  clock : Int
  r_eventid : Nat
  severity : String
  hosts : List Host
  name : String
  r_clock : Int
  rts_clock : Int
deriving Repr, DecidableEq

/-- A row after `host_series_adjustment`: hosts reduced to one name,
`r_eventid`/`r_clock` dropped. -/
structure HostAdjusted where
  eventid : Nat
  clock : Int
  severity : String
  hosts : String
  name : String
  rts_clock : Int
deriving Repr, DecidableEq

/-- A final cleaned record: display-formatted `clock` and `rts_clock`,
severity mapped to its label (`none` for an unmapped code, i.e. NaN). -/
structure CleanRecord where
  eventid : Nat
  clock : String
  severity : Option String
  hosts : String
  name : String
  rts_clock : String
deriving Repr, DecidableEq

/-- `create_resolution_time_dataframe`: take the `r_eventid` column
(rows whose value is absent find no partner and vanish in the merge),
rename it `eventid`, and inner-merge with the `(eventid, clock)`
projection of the same frame.  A pandas inner merge emits, in left-row
order, one row per matching right row (in right-row order); the result
rows are `(eventid = the r_eventid value, clock of the event with that
id)`. -/
def create_resolution_time_dataframe (events : List RawEvent) : List (Nat × String) :=
  (events.filterMap (fun e => e.r_eventid)).flatMap (fun rid =>
    (events.filter (fun e => e.eventid = rid)).map (fun e => (rid, e.clock)))

/-- `restructure_dataframe`: rename the merged columns to
`(r_eventid, r_clock)`.  On the pair representation the rename is the
identity. -/
def restructure_dataframe (events : List RawEvent) : List (Nat × String) :=
  create_resolution_time_dataframe events

/-- Build one row of `adjusted_frame` from a problem record and the
resolution clock its `r_eventid` matched. -/
def mergeRow (p : RawEvent) (rid : Nat) (rclock : String) : MergedEvent :=
  { eventid := p.eventid, clock := p.clock, r_eventid := rid,
    severity := p.severity, hosts := p.hosts, name := p.name,
    r_clock := rclock }

/-- The rows of `adjusted_frame` contributed by one record `p` of
`dropped_frame`: every row of `restructure_dataframe` whose `r_eventid`
key equals `p`'s (a record with `r_eventid` absent matches nothing). -/
def rowMatches (events : List RawEvent) (p : RawEvent) : List MergedEvent :=
  match p.r_eventid with
  | none => []
  | some rid =>
    (restructure_dataframe events).filterMap (fun pr =>
      if pr.1 = rid then some (mergeRow p rid pr.2) else none)

/-- `adjusted_frame = dropped_frame.merge(restructure_dataframe(), on="r_eventid")`:
inner merge, left-row order. -/
def adjusted_frame (events : List RawEvent) : List MergedEvent :=
  events.flatMap (rowMatches events)

/-- Coerce one merged row's clocks with `int(...)` and add
`rts_clock = r_clock - clock`; `none` when a clock is not coercible. -/
def parseRow (m : MergedEvent) : Option ResolvedEvent :=
  match pyInt? m.clock, pyInt? m.r_clock with
  | some c, some rc =>
    some { eventid := m.eventid, clock := c, r_eventid := m.r_eventid,
           severity := m.severity, hosts := m.hosts, name := m.name,
           r_clock := rc, rts_clock := rc - c }
  | _, _ => none

/-- Coerce every row with `parseRow`; `none` as soon as any row fails,
as `astype(int)` on a whole column raises on any bad value. -/
def parseRows : List MergedEvent → Option (List ResolvedEvent)
  | [] => some []
  | m :: rest =>
    match parseRow m, parseRows rest with
    | some r, some rs => some (r :: rs)
    | _, _ => none

/-- `create_resolved_time`: `astype(int)` both clock columns — raising
(aborting the whole batch) if any value fails to coerce — then assign
`rts_clock = r_clock - clock`. -/
def create_resolved_time (rows : List MergedEvent) : Except String (List ResolvedEvent) :=
  match parseRows rows with
  | some out => Except.ok out
  | none => Except.error "invalid literal for int() with base 10"

/-- The host-name extraction applied to each `hosts` cell: `str()` the
nested list, upper-case it, strip outer `[]` then outer braces, split on
single spaces into at most 4 tokens, take token index 3 (`none`, i.e.
NaN, when there are fewer than 4 tokens). -/
def host_token (hs : List Host) : Option (List Char) :=
  let s := (hostsReprChars hs).map Char.toUpper
  let s1 := stripChars s ['[', ']']
  let s2 := stripChars s1 [lbrace, rbrace]
  (pySplitN ' ' 3 s2)[3]?

/-- Token index 3 with surrounding apostrophes stripped, as a string. -/
def hostExtract (hs : List Host) : Option String :=
  (host_token hs).map (fun t => String.mk (stripChars t [squote]))

/-- The row-wise part of `host_series_adjustment`, applicable once split
column 3 exists: replace `hosts` by the extracted name; a row whose own
cell lacks a 4th token gets NaN there and is removed by `dropna()` (the
only possibly-NaN cell at this stage); drop `r_eventid`/`r_clock`, reset
the index. -/
def hostAdjustRows (rows : List ResolvedEvent) : List HostAdjusted :=
  rows.filterMap (fun r =>
    (hostExtract r.hosts).map (fun h =>
      { eventid := r.eventid, clock := r.clock, severity := r.severity,
        hosts := h, name := r.name, rts_clock := r.rts_clock }))

/-- `host_series_adjustment`: `str.split(" ", n=3, expand=True)` creates
only as many columns as the maximum token count over the whole frame, so
`host_frame[3]` raises `KeyError: 3` whenever no row splits into 4
tokens (in particular on an empty frame); otherwise column 3 exists and
the row-wise replacement and `dropna()` of `hostAdjustRows` apply. -/
def host_series_adjustment (rows : List ResolvedEvent) :
    Except String (List HostAdjusted) :=
  if rows.any (fun r => (host_token r.hosts).isSome) then
    Except.ok (hostAdjustRows rows)
  else Except.error "KeyError: 3"

/-- The fixed severity code → label dictionary of `correct_datatypes`;
`Series.map` yields NaN (`none`) for a key missing from the dict. -/
def severity_map (code : String) : Option String :=
  if code = "0" then some "Not Classified"
  else if code = "1" then some "Information"
  else if code = "2" then some "Warning"
  else if code = "3" then some "Average"
  else if code = "4" then some "High"
  else if code = "5" then some "Disaster"
  else none

/-- Two-digit zero-padded decimal rendering. -/
def pad2 (n : Nat) : String :=
  if n < 10 then "0" ++ toString n else toString n

/-- Proleptic Gregorian civil date (year, month, day) of a day count
relative to 1970-01-01 (Howard Hinnant's `civil_from_days`; `/` on `Int`
is Euclidean division, which is floor division for positive divisors). -/
def civilFromDays (z0 : Int) : Int × Nat × Nat :=
  let z := z0 + 719468
  let era := z / 146097
  let doe := (z - era * 146097).toNat
  let yoe := (doe - doe / 1460 + doe / 36524 - doe / 146096) / 365
  let doy := doe - (365 * yoe + yoe / 4 - yoe / 100)
  let mp := (5 * doy + 2) / 153
  let d := doy - (153 * mp + 2) / 5 + 1
  let m := if mp < 10 then mp + 3 else mp - 9
  ((yoe : Int) + era * 400 + (if m ≤ 2 then 1 else 0), m, d)

/-- The UTC civil datetime of an epoch-second value, as
`pd.to_datetime(t, unit="s")` computes it: day count by floor division,
seconds-of-day as the remainder, no timezone or DST adjustment.  Returns
(year, month, day, hour, minute, second). -/
def epochCivil (t : Int) : Int × Nat × Nat × Nat × Nat × Nat :=
  let days := t / 86400
  let sod := (t - 86400 * days).toNat
  let ymd := civilFromDays days
  (ymd.1, ymd.2.1, ymd.2.2, sod / 3600, sod / 60 % 60, sod % 60)

/-- `strftime("%m/%d/%Y %H:%M:%S")` of the UTC datetime of `t`. -/
def formatClock (t : Int) : String :=
  match epochCivil t with
  | (y, m, d, hh, mm, ss) =>
    pad2 m ++ "/" ++ pad2 d ++ "/" ++ toString y ++ " " ++
      pad2 hh ++ ":" ++ pad2 mm ++ ":" ++ pad2 ss

/-- `strftime("%H:%M:%S")` of the UTC datetime of `t`: the time-of-day
part of the same decomposition, used on the `rts_clock` column. -/
def formatRts (t : Int) : String :=
  match epochCivil t with
  | (_, _, _, hh, mm, ss) => pad2 hh ++ ":" ++ pad2 mm ++ ":" ++ pad2 ss

/-- `correct_datatypes`: format `clock`, coerce `eventid` to int (a no-op
in the model), map severity codes through the dict, format `rts_clock`. -/
def correct_datatypes (rows : List HostAdjusted) : List CleanRecord :=
  rows.map (fun r =>
    { eventid := r.eventid, clock := formatClock r.clock,
      severity := severity_map r.severity, hosts := r.hosts,
      name := r.name, rts_clock := formatRts r.rts_clock })

/-- `clean_data`: the whole pipeline.  An `astype(int)` failure in
`create_resolved_time`, or the `KeyError` of `host_series_adjustment`,
propagates as the batch-level error. -/
def clean_data (events : List RawEvent) : Except String (List CleanRecord) :=
  match create_resolved_time (adjusted_frame events) with
  | Except.error e => Except.error e
  | Except.ok resolved =>
    match host_series_adjustment resolved with
    | Except.error e => Except.error e
    | Except.ok adjusted => Except.ok (correct_datatypes adjusted)

/-- Characters for which the modelled `str()` serialization and
ASCII upper-casing agree with Python: printable ASCII, no apostrophe,
no backslash. -/
def hostCharOk (c : Char) : Bool :=
  decide (31 < c.toNat) && decide (c.toNat < 127) &&
    decide (c ≠ squote) && decide (c.toNat ≠ 92)

/-- The expected single-descriptor shape of a `hosts` cell: both field
values are plain printable ASCII without quoting hazards, and the
`hostid` value contains no space (so the display name lands in the 4th
whitespace token). -/
def wellShapedHost (h : Host) : Bool :=
  h.hostid.toList.all (fun c => hostCharOk c && decide (c ≠ ' ')) &&
    h.host.toList.all hostCharOk

/-- The §8 scenario input exactly as the spec states it: the problem
event carries `r_eventid = 0` and the later, host-less event points back
at it with `r_eventid = 1`. -/
def c3input : List RawEvent :=
  [{ eventid := 1, clock := "1000", r_eventid := some 0, severity := "2",
     hosts := [{ hostid := "10084", host := "HOSTA" }], name := "CPU high" },
   { eventid := 2, clock := "1500", r_eventid := some 1, severity := "2",
     hosts := [], name := "CPU high" }]

/-- The §8 scenario input with the two `r_eventid` values exchanged, so
that the problem event points forward at its resolution event, as a
Zabbix problem record does. -/
def c3input_fixed : List RawEvent :=
  [{ eventid := 1, clock := "1000", r_eventid := some 2, severity := "2",
     hosts := [{ hostid := "10084", host := "HOSTA" }], name := "CPU high" },
   { eventid := 2, clock := "1500", r_eventid := some 0, severity := "2",
     hosts := [], name := "CPU high" }]

/-- A batch with unique `eventid`s in which two problem records share
one `r_eventid` target. -/
def c1input : List RawEvent :=
  [{ eventid := 1, clock := "100", r_eventid := some 3, severity := "2",
     hosts := [{ hostid := "10084", host := "HOSTA" }], name := "x" },
   { eventid := 2, clock := "200", r_eventid := some 3, severity := "2",
     hosts := [{ hostid := "10084", host := "HOSTA" }], name := "y" },
   { eventid := 3, clock := "300", r_eventid := none, severity := "2",
     hosts := [{ hostid := "10084", host := "HOSTA" }], name := "z" }]

/-- A batch for the C1 witness: one problem, one resolution, no shared
pointers. -/
def c1winput : List RawEvent :=
  [{ eventid := 1, clock := "1000", r_eventid := some 2, severity := "2",
     hosts := [{ hostid := "10084", host := "HOSTA" }], name := "p" },
   { eventid := 2, clock := "1600", r_eventid := none, severity := "2",
     hosts := [], name := "r" }]

/-- A batch containing a record whose `eventid` is 0, so that a problem
record with `r_eventid = 0` finds a join partner. -/
def c2input : List RawEvent :=
  [{ eventid := 0, clock := "10", r_eventid := none, severity := "2",
     hosts := [{ hostid := "10084", host := "HOSTA" }], name := "n0" },
   { eventid := 1, clock := "25", r_eventid := some 0, severity := "2",
     hosts := [{ hostid := "10084", host := "HOSTA" }], name := "n1" }]

/-- A merged row whose resolution clock is 500 seconds before its
problem clock. -/
def c10row : MergedEvent :=
  { eventid := 7, clock := "1500", r_eventid := 9, severity := "3",
    hosts := [{ hostid := "10084", host := "HOSTA" }], name := "neg",
    r_clock := "1000" }

/-- A merged row whose problem clock is not integer-coercible. -/
def c7badrow : MergedEvent :=
  { eventid := 4, clock := "not a number", r_eventid := 6, severity := "1",
    hosts := [{ hostid := "10084", host := "HOSTA" }], name := "bad",
    r_clock := "1000" }

/-- A merged row with both clocks integer-coercible. -/
def c7goodrow : MergedEvent :=
  { eventid := 4, clock := "900", r_eventid := 6, severity := "1",
    hosts := [{ hostid := "10084", host := "HOSTA" }], name := "good",
    r_clock := "1000" }

/-- A two-event batch (problem 1 resolved by event 2) used to witness
the clock-formatting claim. -/
def c9winput : List RawEvent :=
  [{ eventid := 1, clock := "1000", r_eventid := some 2, severity := "2",
     hosts := [{ hostid := "10084", host := "HOSTA" }], name := "p" },
   { eventid := 2, clock := "1600", r_eventid := none, severity := "2",
     hosts := [], name := "r" }]

/-! ## General lemmas -/

theorem toNat_ofNat_of_valid (n : Nat) (h1 : 65 ≤ n) (h2 : n ≤ 90) :
    (Char.ofNat n).toNat = n := by
  have hv : n.isValidChar := Or.inl (by omega)
  rw [Char.ofNat, dif_pos hv]
  simp [Char.ofNatAux, Char.toNat, UInt32.toNat, BitVec.toNat_ofNatLt]

theorem toUpper_ne (c k : Char) (hk : k.toNat < 65 ∨ 90 < k.toNat)
    (h : c ≠ k) : Char.toUpper c ≠ k := by
  rw [Char.toUpper]
  by_cases hc : c.toNat ≥ 97 ∧ c.toNat ≤ 122
  · rw [if_pos hc]
    intro he
    have h1 : (Char.ofNat (c.toNat - 32)).toNat = c.toNat - 32 :=
      toNat_ofNat_of_valid _ (by omega) (by omega)
    rw [he] at h1
    omega
  · rw [if_neg hc]; exact h

theorem formatRts_eq_mod (t : Int) :
    formatRts t =
      pad2 ((t % 86400).toNat / 3600) ++ ":" ++
        pad2 ((t % 86400).toNat / 60 % 60) ++ ":" ++
        pad2 ((t % 86400).toNat % 60) := by
  rw [formatRts, epochCivil, Int.emod_def]

/-! ## Claim theorems -/

/-- C6: for every correlated record the output `rts_clock` string is the
`HH:MM:SS` rendering of the integer duration taken modulo 24 hours;
durations of a day or more wrap past the hour field instead of being
rejected or rendered with a day count, and `correct_datatypes` applies
exactly this rendering to every row's `rts_clock`. -/
theorem c6_rts_clock_wraps_mod_24h :
    (∀ t : Int, formatRts t =
      pad2 ((t % 86400).toNat / 3600) ++ ":" ++
        pad2 ((t % 86400).toNat / 60 % 60) ++ ":" ++
        pad2 ((t % 86400).toNat % 60)) ∧
    (∀ t : Int, formatRts (t + 86400) = formatRts t) ∧
    (∀ rows : List HostAdjusted,
      (correct_datatypes rows).map (fun r => r.rts_clock) =
        rows.map (fun r => formatRts r.rts_clock)) := by
  refine ⟨formatRts_eq_mod, ?_, ?_⟩
  · intro t
    have h : (t + 86400) % 86400 = t % 86400 := by omega
    rw [formatRts_eq_mod, formatRts_eq_mod, h]
  · intro rows
    simp [correct_datatypes]

/-- C8: the cleaning pipeline is deterministic — two runs of
`clean_data` on the identical input batch give equal results. -/
theorem c8_pipeline_deterministic (events : List RawEvent)
    (o1 o2 : Except String (List CleanRecord))
    (h1 : clean_data events = o1) (h2 : clean_data events = o2) :
    o1 = o2 := by
  rw [← h1, ← h2]

/-- Witness for C8 at the empty batch (on which the pipeline fails with
the host stage's `KeyError`, identically on both runs). -/
theorem c8_pipeline_deterministic_witness :
    (Except.error "KeyError: 3" : Except String (List CleanRecord)) =
      Except.error "KeyError: 3" :=
  c8_pipeline_deterministic [] (Except.error "KeyError: 3")
    (Except.error "KeyError: 3") rfl rfl

/-- C4: the severity mapping is deterministic and matches the fixed
six-entry table; any code outside the table maps to `none` (NaN), never
to one of the six labels, and `correct_datatypes` maps every row (one
output row per input row — no abort) through `severity_map`. -/
theorem c4_severity_table (c : String) :
    severity_map "0" = some "Not Classified" ∧
    severity_map "1" = some "Information" ∧
    severity_map "2" = some "Warning" ∧
    severity_map "3" = some "Average" ∧
    severity_map "4" = some "High" ∧
    severity_map "5" = some "Disaster" ∧
    (c ∉ (["0", "1", "2", "3", "4", "5"] : List String) →
      severity_map c = none) ∧
    (∀ rows : List HostAdjusted,
      (correct_datatypes rows).map (fun r => r.severity) =
        rows.map (fun r => severity_map r.severity) ∧
      (correct_datatypes rows).length = rows.length) := by
  refine ⟨rfl, rfl, rfl, rfl, rfl, rfl, ?_, ?_⟩
  · intro hc
    simp only [List.mem_cons, List.not_mem_nil, or_false, not_or] at hc
    obtain ⟨h0, h1, h2, h3, h4, h5⟩ := hc
    simp [severity_map, h0, h1, h2, h3, h4, h5]
  · intro rows
    constructor <;> simp [correct_datatypes]

/-- Witness for C4: the unmapped code "9" yields no label. -/
theorem c4_severity_table_witness : severity_map "9" = none :=
  (c4_severity_table "9").2.2.2.2.2.2.1 (by decide)

/-- C3 counterexample: on the §8 scenario input exactly as stated
(`r_eventid = 0` on the first event, `r_eventid = 1` on the second) the
pipeline does not output the promised record — it aborts with the host
stage's `KeyError: 3`: the only join partner is the hostless second
event, whose empty `hosts` cell splits into a single token, so the split
frame has no column 3 at all. -/
theorem c3_scenario_counterexample :
    clean_data c3input = Except.error "KeyError: 3" := by
  rfl

/-- C3 amended: with the two `r_eventid` values exchanged — the problem
event pointing forward at its resolution event, as in real Zabbix data —
the pipeline outputs exactly the single record the scenario promises. -/
theorem c3_scenario_amended :
    clean_data c3input_fixed =
      Except.ok [{ eventid := 1, clock := "01/01/1970 00:16:40",
                   severity := some "Warning", hosts := "HOSTA",
                   name := "CPU high", rts_clock := "00:08:20" }] := by
  rfl

theorem parseRow_none_iff (m : MergedEvent) :
    parseRow m = none ↔ pyInt? m.clock = none ∨ pyInt? m.r_clock = none := by
  cases hc : pyInt? m.clock <;> cases hrc : pyInt? m.r_clock <;>
    simp [parseRow, hc, hrc]

theorem parseRow_eq_some (m : MergedEvent) (r : ResolvedEvent)
    (h : parseRow m = some r) :
    ∃ c rc : Int, pyInt? m.clock = some c ∧ pyInt? m.r_clock = some rc ∧
      r = { eventid := m.eventid, clock := c, r_eventid := m.r_eventid,
            severity := m.severity, hosts := m.hosts, name := m.name,
            r_clock := rc, rts_clock := rc - c } := by
  cases hc : pyInt? m.clock with
  | none => simp [parseRow, hc] at h
  | some c =>
    cases hrc : pyInt? m.r_clock with
    | none => simp [parseRow, hc, hrc] at h
    | some rc =>
      refine ⟨c, rc, rfl, rfl, ?_⟩
      simp [parseRow, hc, hrc] at h
      exact h.symm

theorem parseRows_forall₂ (l : List MergedEvent) (out : List ResolvedEvent)
    (h : parseRows l = some out) :
    List.Forall₂ (fun m r => parseRow m = some r) l out := by
  induction l generalizing out with
  | nil =>
    cases out with
    | nil => exact List.Forall₂.nil
    | cons r rs => simp [parseRows] at h
  | cons m rest ih =>
    rw [parseRows] at h
    cases hm : parseRow m with
    | none => rw [hm] at h; simp at h
    | some r0 =>
      rw [hm] at h
      cases hr : parseRows rest with
      | none => rw [hr] at h; simp at h
      | some rs0 =>
        rw [hr] at h
        simp only [Option.some.injEq] at h
        subst h
        exact List.Forall₂.cons hm (ih rs0 hr)

theorem parseRows_none_of_bad (l : List MergedEvent) (m : MergedEvent)
    (hm : m ∈ l) (hbad : parseRow m = none) : parseRows l = none := by
  induction l with
  | nil => simp at hm
  | cons a rest ih =>
    rw [parseRows]
    rcases List.mem_cons.mp hm with h | h
    · subst h
      rw [hbad]
    · rw [ih h]
      cases parseRow a <;> rfl

theorem parseRows_some_of_good (l : List MergedEvent)
    (hgood : ∀ m ∈ l, (parseRow m).isSome) :
    ∃ out, parseRows l = some out := by
  induction l with
  | nil => exact ⟨[], rfl⟩
  | cons a rest ih =>
    obtain ⟨out, hout⟩ := ih (fun m hm => hgood m (List.mem_cons_of_mem a hm))
    have ha := hgood a (List.mem_cons_self a rest)
    cases hpa : parseRow a with
    | none => rw [hpa] at ha; simp at ha
    | some r => exact ⟨r :: out, by rw [parseRows, hpa, hout]⟩

/-- C7: `create_resolved_time` aborts the whole batch with an error as
soon as any merged row's `clock` or `r_clock` is not integer-coercible
(no partial output); when every row's clocks are coercible it succeeds,
and each output row carries `rts_clock = r_clock - clock`.  A stage
error propagates to `clean_data` unchanged, not swallowed. -/
theorem c7_duration_stage_contract (rows : List MergedEvent) :
    ((∃ m ∈ rows, pyInt? m.clock = none ∨ pyInt? m.r_clock = none) →
      create_resolved_time rows =
        Except.error "invalid literal for int() with base 10") ∧
    ((∀ m ∈ rows, (pyInt? m.clock).isSome ∧ (pyInt? m.r_clock).isSome) →
      ∃ out, create_resolved_time rows = Except.ok out) ∧
    (∀ out, create_resolved_time rows = Except.ok out →
      List.Forall₂
        (fun (m : MergedEvent) (r : ResolvedEvent) =>
          ∃ c rc : Int, pyInt? m.clock = some c ∧ pyInt? m.r_clock = some rc ∧
            r.clock = c ∧ r.r_clock = rc ∧ r.rts_clock = rc - c ∧
            r.eventid = m.eventid)
        rows out) ∧
    (∀ (events : List RawEvent) (e : String),
      create_resolved_time (adjusted_frame events) = Except.error e →
      clean_data events = Except.error e) := by
  refine ⟨?_, ?_, ?_, ?_⟩
  · rintro ⟨m, hm, hbad⟩
    have hnone : parseRow m = none := (parseRow_none_iff m).mpr hbad
    rw [create_resolved_time, parseRows_none_of_bad rows m hm hnone]
  · intro hgood
    obtain ⟨out, hout⟩ := parseRows_some_of_good rows (fun m hm => by
      obtain ⟨h1, h2⟩ := hgood m hm
      cases hc : pyInt? m.clock with
      | none => rw [hc] at h1; simp at h1
      | some c =>
        cases hrc : pyInt? m.r_clock with
        | none => rw [hrc] at h2; simp at h2
        | some rc => simp [parseRow, hc, hrc])
    exact ⟨out, by rw [create_resolved_time, hout]⟩
  · intro out hok
    rw [create_resolved_time] at hok
    cases hpr : parseRows rows with
    | none => rw [hpr] at hok; simp at hok
    | some out0 =>
      rw [hpr] at hok
      simp only [Except.ok.injEq] at hok
      subst hok
      refine (parseRows_forall₂ rows out0 hpr).imp ?_
      intro m r hmr
      obtain ⟨c, rc, hc, hrc, hr⟩ := parseRow_eq_some m r hmr
      subst hr
      exact ⟨c, rc, hc, hrc, rfl, rfl, rfl, rfl⟩
  · intro events e herr
    rw [clean_data, herr]

/-- Witness for C7: a non-numeric clock aborts the stage; an all-numeric
batch succeeds. -/
theorem c7_duration_stage_contract_witness :
    create_resolved_time [c7badrow] =
        Except.error "invalid literal for int() with base 10" ∧
    ∃ out, create_resolved_time [c7goodrow] = Except.ok out := by
  constructor
  · exact (c7_duration_stage_contract [c7badrow]).1
      ⟨c7badrow, List.mem_cons_self _ _, Or.inl rfl⟩
  · exact (c7_duration_stage_contract [c7goodrow]).2.1
      (fun m hm => by
        rcases List.mem_cons.mp hm with h | h
        · subst h; exact ⟨rfl, rfl⟩
        · simp at h)

theorem host_token_isSome_of_extract (hs : List Host) (s : String)
    (h : hostExtract hs = some s) : (host_token hs).isSome = true := by
  rw [hostExtract] at h
  cases ht : host_token hs with
  | none => rw [ht] at h; exact absurd h (by simp)
  | some t => rfl

theorem host_series_adjustment_ok (rows : List ResolvedEvent)
    (out : List HostAdjusted)
    (h : host_series_adjustment rows = Except.ok out) :
    out = hostAdjustRows rows := by
  rw [host_series_adjustment] at h
  by_cases hc : rows.any (fun r => (host_token r.hosts).isSome) = true
  · rw [if_pos hc] at h
    exact (Except.ok.inj h).symm
  · rw [if_neg hc] at h
    exact absurd h (by simp)

theorem host_series_adjustment_ok_of_mem (rows : List ResolvedEvent)
    (r : ResolvedEvent) (hr : r ∈ rows)
    (hsome : (host_token r.hosts).isSome = true) :
    host_series_adjustment rows = Except.ok (hostAdjustRows rows) := by
  have hany : rows.any (fun x => (host_token x.hosts).isSome) = true :=
    List.any_eq_true.mpr ⟨r, hr, hsome⟩
  rw [host_series_adjustment, if_pos hany]

/-- C10: a correlated record whose resolution clock is strictly earlier
than its problem clock causes no error and is not dropped: the duration
stage succeeds and assigns the negative `rts_clock = r_clock - clock`,
the host stage succeeds and keeps the row (its column lookup and filter
look only at the extracted host token), and the final record renders the
negative duration with the same modulo-24h `HH:MM:SS` formatting. -/
theorem c10_negative_duration (m : MergedEvent) (c rc : Int) (hname : String)
    (hc : pyInt? m.clock = some c) (hrc : pyInt? m.r_clock = some rc)
    (hlt : rc < c) (hh : hostExtract m.hosts = some hname) :
    create_resolved_time [m] =
      Except.ok [{ eventid := m.eventid, clock := c, r_eventid := m.r_eventid,
                   severity := m.severity, hosts := m.hosts, name := m.name,
                   r_clock := rc, rts_clock := rc - c }] ∧
    rc - c < 0 ∧
    host_series_adjustment
        [{ eventid := m.eventid, clock := c, r_eventid := m.r_eventid,
           severity := m.severity, hosts := m.hosts, name := m.name,
           r_clock := rc, rts_clock := rc - c }] =
      Except.ok [{ eventid := m.eventid, clock := c,
                   severity := m.severity, hosts := hname,
                   name := m.name, rts_clock := rc - c }] ∧
    correct_datatypes
        [{ eventid := m.eventid, clock := c, severity := m.severity,
           hosts := hname, name := m.name, rts_clock := rc - c }] =
      [{ eventid := m.eventid, clock := formatClock c,
         severity := severity_map m.severity, hosts := hname,
         name := m.name, rts_clock := formatRts (rc - c) }] ∧
    formatRts (rc - c) =
      pad2 (((rc - c) % 86400).toNat / 3600) ++ ":" ++
        pad2 (((rc - c) % 86400).toNat / 60 % 60) ++ ":" ++
        pad2 (((rc - c) % 86400).toNat % 60) := by
  have hsome : (host_token m.hosts).isSome = true :=
    host_token_isSome_of_extract m.hosts hname hh
  refine ⟨?_, by omega, ?_, ?_, formatRts_eq_mod _⟩
  · rw [create_resolved_time]
    have hp : parseRows [m] =
        some [{ eventid := m.eventid, clock := c, r_eventid := m.r_eventid,
                severity := m.severity, hosts := m.hosts, name := m.name,
                r_clock := rc, rts_clock := rc - c }] := by
      simp [parseRows, parseRow, hc, hrc]
    rw [hp]
  · simp [host_series_adjustment, hostAdjustRows, hh, hsome]
  · simp [correct_datatypes]

/-- Witness for C10 at a concrete merged row with `clock = 1500`,
`r_clock = 1000`: the record survives the host stage with duration -500,
rendered as its wrapped time of day. -/
theorem c10_negative_duration_witness :
    host_series_adjustment
        [{ eventid := 7, clock := 1500, r_eventid := 9, severity := "3",
           hosts := [{ hostid := "10084", host := "HOSTA" }], name := "neg",
           r_clock := 1000, rts_clock := 1000 - 1500 }] =
      Except.ok [{ eventid := 7, clock := 1500, severity := "3",
                   hosts := "HOSTA", name := "neg",
                   rts_clock := 1000 - 1500 }] ∧
    correct_datatypes
        [{ eventid := 7, clock := 1500, severity := "3", hosts := "HOSTA",
           name := "neg", rts_clock := 1000 - 1500 }] =
      [{ eventid := 7, clock := formatClock 1500,
         severity := severity_map "3", hosts := "HOSTA",
         name := "neg", rts_clock := formatRts (1000 - 1500) }] := by
  have h := c10_negative_duration c10row 1500 1000 "HOSTA" rfl rfl
    (by omega) rfl
  exact ⟨h.2.2.1, h.2.2.2.1⟩

theorem mem_create_resolution_time_dataframe (events : List RawEvent)
    (pr : Nat × String) (h : pr ∈ create_resolution_time_dataframe events) :
    ∃ e ∈ events, e.eventid = pr.1 ∧ e.clock = pr.2 := by
  rw [create_resolution_time_dataframe] at h
  obtain ⟨rid, _, hpr⟩ := List.mem_flatMap.mp h
  obtain ⟨e, he, hpre⟩ := List.mem_map.mp hpr
  obtain ⟨hee, heq⟩ := List.mem_filter.mp he
  refine ⟨e, hee, ?_, ?_⟩
  · rw [← hpre]; exact of_decide_eq_true heq
  · rw [← hpre]

theorem mem_rowMatches (events : List RawEvent) (p : RawEvent) (m : MergedEvent)
    (h : m ∈ rowMatches events p) :
    ∃ rid rc, p.r_eventid = some rid ∧ m = mergeRow p rid rc ∧
      (rid, rc) ∈ restructure_dataframe events := by
  rw [rowMatches] at h
  cases hre : p.r_eventid with
  | none => rw [hre] at h; simp at h
  | some rid =>
    rw [hre] at h
    obtain ⟨pr, hpr, hif⟩ := List.mem_filterMap.mp h
    by_cases hk : pr.1 = rid
    · rw [if_pos hk] at hif
      obtain rfl := Option.some.inj hif
      exact ⟨rid, pr.2, rfl, rfl, by rw [← hk]; exact hpr⟩
    · rw [if_neg hk] at hif; exact absurd hif (by simp)

theorem eventid_of_mem_rowMatches (events : List RawEvent) (p : RawEvent)
    (m : MergedEvent) (h : m ∈ rowMatches events p) : m.eventid = p.eventid := by
  obtain ⟨rid, rc, _, rfl, _⟩ := mem_rowMatches events p m h
  rfl

theorem filter_eq_singleton_of_nodup {α β : Type} [DecidableEq β] (f : α → β)
    (l : List α) (a : α) (hnd : (l.map f).Nodup) (ha : a ∈ l) :
    l.filter (fun x => f x = f a) = [a] := by
  induction l with
  | nil => simp at ha
  | cons b t ih =>
    rw [List.map_cons, List.nodup_cons] at hnd
    obtain ⟨hfb, hndt⟩ := hnd
    rcases List.mem_cons.mp ha with h | h
    · subst h
      rw [List.filter_cons, if_pos (by simp)]
      have ht : t.filter (fun x => f x = f a) = [] := by
        rw [List.filter_eq_nil_iff]
        intro x hx hfx
        exact hfb (List.mem_map.mpr ⟨x, hx, (of_decide_eq_true hfx).symm ▸ rfl⟩)
      rw [ht]
    · have hne : f b ≠ f a := by
        intro he
        exact hfb (he ▸ List.mem_map.mpr ⟨a, h, rfl⟩)
      rw [List.filter_cons, if_neg (by simpa using hne)]
      exact ih hndt h

theorem flatMap_of_filter_singleton {α β : Type} (l : List α) (p : α → Bool)
    (g : α → List β) (a : α) (hfil : l.filter p = [a])
    (hnil : ∀ x ∈ l, p x = false → g x = []) : l.flatMap g = g a := by
  induction l with
  | nil => simp at hfil
  | cons b t ih =>
    rw [List.flatMap_cons]
    rw [List.filter_cons] at hfil
    by_cases hpb : p b = true
    · rw [if_pos hpb] at hfil
      obtain ⟨hba, hnilfil⟩ := by
        have := List.cons.inj hfil
        exact this
      subst hba
      have ht : t.flatMap g = [] := by
        rw [List.flatMap_eq_nil_iff]
        intro x hx
        exact hnil x (List.mem_cons_of_mem b hx)
          (by
            have := List.filter_eq_nil_iff.mp hnilfil x hx
            cases hpx : p x with
            | true => exact absurd hpx this
            | false => rfl)
      rw [ht, List.append_nil]
    · rw [if_neg hpb] at hfil
      rw [hnil b (List.mem_cons_self b t) (by cases hpb' : p b with
            | true => exact absurd hpb' hpb
            | false => rfl),
          List.nil_append]
      exact ih hfil (fun x hx => hnil x (List.mem_cons_of_mem b hx))

theorem keys_filter_nil (events : List RawEvent) (v : Nat)
    (h : events.filter (fun q => q.r_eventid = some v) = []) :
    (events.filterMap (fun e => e.r_eventid)).filter (fun k => k = v) = [] := by
  induction events with
  | nil => rfl
  | cons e t ih =>
    rw [List.filter_cons] at h
    by_cases hev : e.r_eventid = some v
    · rw [if_pos (by simpa using hev)] at h
      exact absurd h (by simp)
    · rw [if_neg (by simpa using hev)] at h
      rw [List.filterMap_cons]
      cases hre : e.r_eventid with
      | none => exact ih h
      | some k =>
        have hkv : k ≠ v := fun he => hev (by rw [hre, he])
        rw [List.filter_cons, if_neg (by simpa using hkv)]
        exact ih h

theorem keys_filter_singleton (events : List RawEvent) (v : Nat) (P : RawEvent)
    (h : events.filter (fun q => q.r_eventid = some v) = [P]) :
    (events.filterMap (fun e => e.r_eventid)).filter (fun k => k = v) = [v] := by
  induction events with
  | nil => simp at h
  | cons e t ih =>
    rw [List.filter_cons] at h
    by_cases hev : e.r_eventid = some v
    · rw [if_pos (by simpa using hev)] at h
      obtain ⟨hPe, htnil⟩ := List.cons.inj h
      rw [List.filterMap_cons, hev, List.filter_cons, if_pos (by simp)]
      rw [keys_filter_nil t v htnil]
    · rw [if_neg (by simpa using hev)] at h
      rw [List.filterMap_cons]
      cases hre : e.r_eventid with
      | none => exact ih h
      | some k =>
        have hkv : k ≠ v := fun he => hev (by rw [hre, he])
        rw [List.filter_cons, if_neg (by simpa using hkv)]
        exact ih h

theorem forall₂_filter {α β : Type} (R : α → β → Prop) (p : α → Bool)
    (q : β → Bool) (hpq : ∀ a b, R a b → p a = q b) :
    ∀ (l : List α) (l' : List β), List.Forall₂ R l l' →
      List.Forall₂ R (l.filter p) (l'.filter q) := by
  intro l l' h
  induction h with
  | nil => exact List.Forall₂.nil
  | cons hab htail ih =>
    rename_i a b ta tb
    rw [List.filter_cons, List.filter_cons, ← hpq a b hab]
    cases hpa : p a with
    | true => rw [if_pos rfl, if_pos rfl]
              exact List.Forall₂.cons hab ih
    | false => rw [if_neg (by simp), if_neg (by simp)]
               exact ih

theorem forall₂_mem_right {α β : Type} (R : α → β → Prop) (l : List α)
    (l' : List β) (h : List.Forall₂ R l l') (b : β) (hb : b ∈ l') :
    ∃ a ∈ l, R a b := by
  induction h with
  | nil => simp at hb
  | cons hab htail ih =>
    rename_i x y tx ty
    rcases List.mem_cons.mp hb with hby | hby
    · exact ⟨x, List.mem_cons_self x tx, hby ▸ hab⟩
    · obtain ⟨a, ha, hr⟩ := ih hby
      exact ⟨a, List.mem_cons_of_mem x ha, hr⟩

theorem rowMatches_of_unique (events : List RawEvent) (P R : RawEvent)
    (hR : R ∈ events)
    (hnd : (events.map (fun e => e.eventid)).Nodup)
    (hlink : P.r_eventid = some R.eventid)
    (huniq : events.filter (fun q => q.r_eventid = some R.eventid) = [P]) :
    rowMatches events P = [mergeRow P R.eventid R.clock] := by
  simp only [rowMatches, hlink]
  rw [restructure_dataframe, create_resolution_time_dataframe,
    List.filterMap_flatMap]
  have hmain := flatMap_of_filter_singleton
    (events.filterMap (fun e => e.r_eventid))
    (fun k => decide (k = R.eventid))
    (fun rid' => List.filterMap
      (fun pr => if pr.1 = R.eventid then some (mergeRow P R.eventid pr.2) else none)
      ((events.filter (fun e => e.eventid = rid')).map (fun e => (rid', e.clock))))
    R.eventid
    (keys_filter_singleton events R.eventid P huniq)
    (by
      intro k hk hkf
      have hkne : k ≠ R.eventid := by
        intro hke
        have hkf' : decide (k = R.eventid) = false := hkf
        rw [hke] at hkf'
        simp at hkf'
      dsimp only
      rw [List.filterMap_map]
      rw [List.filterMap_eq_nil_iff]
      intro e he
      simp [Function.comp, hkne])
  rw [hmain]
  dsimp only
  rw [filter_eq_singleton_of_nodup (fun e => e.eventid) events R hnd hR]
  simp

theorem adjusted_filter_eq (events : List RawEvent) (P R : RawEvent)
    (hP : P ∈ events) (hR : R ∈ events)
    (hnd : (events.map (fun e => e.eventid)).Nodup)
    (hlink : P.r_eventid = some R.eventid)
    (huniq : events.filter (fun q => q.r_eventid = some R.eventid) = [P]) :
    (adjusted_frame events).filter (fun m => m.eventid = P.eventid) =
      [mergeRow P R.eventid R.clock] := by
  rw [adjusted_frame, List.filter_flatMap]
  have hstep := flatMap_of_filter_singleton events
    (fun q => decide (q.eventid = P.eventid))
    (fun q => (rowMatches events q).filter (fun m => m.eventid = P.eventid))
    P
    (filter_eq_singleton_of_nodup (fun e => e.eventid) events P hnd hP)
    (by
      intro q hq hpq
      have hpq' : decide (q.eventid = P.eventid) = false := hpq
      rw [List.filter_eq_nil_iff]
      intro m hm hdec
      rw [eventid_of_mem_rowMatches events q m hm] at hdec
      rw [hpq'] at hdec
      exact absurd hdec (by simp))
  rw [hstep]
  dsimp only
  have hall : (rowMatches events P).filter (fun m => m.eventid = P.eventid) =
      rowMatches events P := by
    rw [List.filter_eq_self]
    intro m hm
    exact decide_eq_true (eventid_of_mem_rowMatches events P m hm)
  rw [hall]
  exact rowMatches_of_unique events P R hR hnd hlink huniq

/-- C1 counterexample: in a batch with unique `eventid`s where two
problem records share the same `r_eventid` target, the duration-stage
output contains two records with the first problem's `eventid`, not
exactly one — each problem row is duplicated once per record sharing its
`r_eventid`, because the restructured frame carries one `(r_eventid,
r_clock)` row per pointing record and the second merge multiplies the
matches. -/
theorem c1_correlation_counterexample :
    (create_resolved_time (adjusted_frame c1input)).map
        (fun out => (out.filter (fun r => r.eventid = 1)).length) =
      Except.ok 2 := by
  rfl

/-- C1 (amended): for a batch with unique `eventid`s, if `P` is the only
record of the batch whose `r_eventid` equals `R.eventid` (with `R` in
the batch), and the duration stage succeeds, then the duration-stage
output contains exactly one record with `eventid = P.eventid`, and its
`rts_clock` equals `R.clock - P.clock` as integers. -/
theorem c1_correlation_unique (events : List RawEvent) (P R : RawEvent)
    (out : List ResolvedEvent)
    (hP : P ∈ events) (hR : R ∈ events)
    (hnd : (events.map (fun e => e.eventid)).Nodup)
    (hlink : P.r_eventid = some R.eventid)
    (huniq : events.filter (fun q => q.r_eventid = some R.eventid) = [P])
    (hok : create_resolved_time (adjusted_frame events) = Except.ok out) :
    ∃ c rc : Int, pyInt? P.clock = some c ∧ pyInt? R.clock = some rc ∧
      ∃ res : ResolvedEvent,
        out.filter (fun r => r.eventid = P.eventid) = [res] ∧
        res.eventid = P.eventid ∧ res.rts_clock = rc - c := by
  rw [create_resolved_time] at hok
  cases hpr : parseRows (adjusted_frame events) with
  | none => rw [hpr] at hok; exact absurd hok (by simp)
  | some out0 =>
    rw [hpr] at hok
    simp only [Except.ok.injEq] at hok
    subst hok
    have hf2 := parseRows_forall₂ _ _ hpr
    have hfil := forall₂_filter (fun m r => parseRow m = some r)
      (fun m => decide (m.eventid = P.eventid))
      (fun r => decide (r.eventid = P.eventid))
      (fun m r hmr => by
        obtain ⟨c, rc, hc, hrc, hr⟩ := parseRow_eq_some m r hmr
        subst hr
        rfl)
      _ _ hf2
    rw [adjusted_filter_eq events P R hP hR hnd hlink huniq] at hfil
    obtain ⟨res, u, hhead, htail, hu⟩ := List.forall₂_cons_left_iff.mp hfil
    obtain rfl := List.forall₂_nil_left_iff.mp htail
    obtain ⟨c, rc, hc, hrc, hr⟩ := parseRow_eq_some _ _ hhead
    subst hr
    exact ⟨c, rc, hc, hrc, _, hu, rfl, rfl⟩

/-- Witness for C1 at a two-event batch `c1winput` (problem 1 resolved
by event 2, clocks 1000 and 1600). -/
theorem c1_correlation_unique_witness :
    ∃ c rc : Int, pyInt? "1000" = some c ∧ pyInt? "1600" = some rc ∧
      ∃ res : ResolvedEvent,
        ([({ eventid := 1, clock := 1000, r_eventid := 2, severity := "2",
             hosts := [{ hostid := "10084", host := "HOSTA" }], name := "p",
             r_clock := 1600, rts_clock := 600 } : ResolvedEvent)].filter
            (fun r => r.eventid = 1) = [res]) ∧
        res.eventid = 1 ∧ res.rts_clock = rc - c :=
  c1_correlation_unique c1winput
    { eventid := 1, clock := "1000", r_eventid := some 2, severity := "2",
      hosts := [{ hostid := "10084", host := "HOSTA" }], name := "p" }
    { eventid := 2, clock := "1600", r_eventid := none, severity := "2",
      hosts := [], name := "r" }
    [{ eventid := 1, clock := 1000, r_eventid := 2, severity := "2",
       hosts := [{ hostid := "10084", host := "HOSTA" }], name := "p",
       r_clock := 1600, rts_clock := 600 }]
    (by decide) (by decide) (by decide) rfl (by decide) rfl

theorem clean_mem_trace (events : List RawEvent) (out : List CleanRecord)
    (hok : clean_data events = Except.ok out) (r : CleanRecord) (hr : r ∈ out) :
    ∃ m ∈ adjusted_frame events, ∃ c rc : Int,
      pyInt? m.clock = some c ∧ pyInt? m.r_clock = some rc ∧
      r.eventid = m.eventid ∧ r.clock = formatClock c ∧
      r.rts_clock = formatRts (rc - c) ∧
      r.severity = severity_map m.severity ∧ r.name = m.name := by
  rw [clean_data] at hok
  cases hcr : create_resolved_time (adjusted_frame events) with
  | error e => rw [hcr] at hok; exact absurd hok (by simp)
  | ok resolved =>
    rw [hcr] at hok
    dsimp only at hok
    cases hha : host_series_adjustment resolved with
    | error e => rw [hha] at hok; exact absurd hok (by simp)
    | ok adjusted =>
    rw [hha] at hok
    simp only [Except.ok.injEq] at hok
    subst hok
    have hadj : adjusted = hostAdjustRows resolved :=
      host_series_adjustment_ok resolved adjusted hha
    subst hadj
    obtain ⟨ha, hamem, har⟩ := List.mem_map.mp hr
    rw [hostAdjustRows] at hamem
    obtain ⟨res, hres, hmk⟩ := List.mem_filterMap.mp hamem
    rw [create_resolved_time] at hcr
    cases hpr : parseRows (adjusted_frame events) with
    | none => rw [hpr] at hcr; exact absurd hcr (by simp)
    | some out0 =>
      rw [hpr] at hcr
      simp only [Except.ok.injEq] at hcr
      subst hcr
      obtain ⟨m, hm, hpm⟩ := forall₂_mem_right _ _ _
        (parseRows_forall₂ _ _ hpr) res hres
      obtain ⟨c, rc, hc, hrc, hresdef⟩ := parseRow_eq_some m res hpm
      refine ⟨m, hm, c, rc, hc, hrc, ?_⟩
      cases hhe : hostExtract res.hosts with
      | none => rw [hhe] at hmk; exact absurd hmk (by simp)
      | some hname =>
        rw [hhe] at hmk
        simp only [Option.map_some', Option.some.injEq] at hmk
        subst hmk
        subst har
        subst hresdef
        exact ⟨rfl, rfl, rfl, rfl, rfl⟩

/-- C2 counterexample: in a batch that contains a record with
`eventid = 0`, a problem event whose `r_eventid` is zero does join it
and contributes an output record (the code has no special case for zero
— it is excluded only when no record carries `eventid` 0). -/
theorem c2_zero_counterexample :
    clean_data c2input =
      Except.ok [{ eventid := 1, clock := "01/01/1970 00:00:25",
                   severity := some "Warning", hosts := "HOSTA",
                   name := "n1", rts_clock := "23:59:45" }] := by
  rfl

/-- C2 (amended): a problem event whose `r_eventid` is absent, or not
equal to the `eventid` of any record in the batch, contributes no row to
the correlated frame; consequently (for a batch with unique `eventid`s)
no cleaned output record carries its `eventid`.  An `r_eventid` of zero
is excluded exactly when no batch record has `eventid` 0, as in genuine
Zabbix batches. -/
theorem c2_unmatched_excluded (events : List RawEvent) (P : RawEvent)
    (hP : P ∈ events)
    (hnd : (events.map (fun e => e.eventid)).Nodup)
    (hnores : P.r_eventid = none ∨ ∀ R ∈ events, P.r_eventid ≠ some R.eventid) :
    rowMatches events P = [] ∧
    ∀ out, clean_data events = Except.ok out →
      ∀ r ∈ out, r.eventid ≠ P.eventid := by
  have hrow : rowMatches events P = [] := by
    cases hre : P.r_eventid with
    | none => rw [rowMatches, hre]
    | some rid =>
      rcases hnores with h | h
      · rw [h] at hre; exact absurd hre (by simp)
      · rw [rowMatches, hre]
        rw [List.filterMap_eq_nil_iff]
        intro pr hpr
        obtain ⟨e, he, hee, _⟩ :=
          mem_create_resolution_time_dataframe events pr hpr
        have hne : pr.1 ≠ rid := by
          intro hk
          exact h e he (by rw [hre, ← hk, hee])
        rw [if_neg hne]
  refine ⟨hrow, ?_⟩
  intro out hok r hr hre
  obtain ⟨m, hm, c, rc, hc, hrc, hrev, _⟩ :=
    clean_mem_trace events out hok r hr
  obtain ⟨q, hq, hmq⟩ := List.mem_flatMap.mp hm
  have hqe : q.eventid = P.eventid := by
    rw [← eventid_of_mem_rowMatches events q m hmq, ← hrev, hre]
  have hqP : q = P := List.inj_on_of_nodup_map hnd hq hP hqe
  rw [hqP, hrow] at hmq
  simp at hmq

/-- Witness for C2: the first record of `c2input` has no `r_eventid`
and generates no merged row. -/
theorem c2_unmatched_excluded_witness :
    rowMatches c2input
      { eventid := 0, clock := "10", r_eventid := none, severity := "2",
        hosts := [{ hostid := "10084", host := "HOSTA" }], name := "n0" } = [] :=
  (c2_unmatched_excluded c2input
    { eventid := 0, clock := "10", r_eventid := none, severity := "2",
      hosts := [{ hostid := "10084", host := "HOSTA" }], name := "n0" }
    (by decide) (by decide) (Or.inl rfl)).1

/-- C9: the formatted display `clock` is a pure function of the integer
Unix timestamp — `correct_datatypes` maps every row's clock through
`formatClock`, which takes only the integer (the embedded
`pd.to_datetime(..., unit="s")` path is timezone-naive UTC arithmetic:
floor-divide into days and civil-calendar conversion, with no timezone,
DST or locale input) — and every cleaned record's clock string is
`formatClock` of the integer parsed from an input clock, so equal clock
integers always yield equal formatted strings. -/
theorem c9_clock_format_pure :
    (∀ rows : List HostAdjusted,
      (correct_datatypes rows).map (fun r => r.clock) =
        rows.map (fun r => formatClock r.clock)) ∧
    (∀ t u : Int, t = u → formatClock t = formatClock u) ∧
    (∀ (events : List RawEvent) (out : List CleanRecord),
      clean_data events = Except.ok out →
      ∀ r ∈ out, ∃ m ∈ adjusted_frame events, ∃ c : Int,
        pyInt? m.clock = some c ∧ r.clock = formatClock c) := by
  refine ⟨?_, ?_, ?_⟩
  · intro rows
    simp [correct_datatypes]
  · intro t u h
    rw [h]
  · intro events out hok r hr
    obtain ⟨m, hm, c, rc, hc, _, _, hclock, _⟩ :=
      clean_mem_trace events out hok r hr
    exact ⟨m, hm, c, hc, hclock⟩

/-- Witness for C9 at the concrete batch `c9winput`. -/
theorem c9_clock_format_pure_witness :
    ∃ m ∈ adjusted_frame c9winput, ∃ c : Int,
      pyInt? m.clock = some c ∧
      ({ eventid := 1, clock := "01/01/1970 00:16:40",
         severity := some "Warning", hosts := "HOSTA", name := "p",
         rts_clock := "00:10:00" } : CleanRecord).clock = formatClock c :=
  c9_clock_format_pure.2.2 c9winput
    [{ eventid := 1, clock := "01/01/1970 00:16:40",
       severity := some "Warning", hosts := "HOSTA", name := "p",
       rts_clock := "00:10:00" }]
    rfl
    { eventid := 1, clock := "01/01/1970 00:16:40",
      severity := some "Warning", hosts := "HOSTA", name := "p",
      rts_clock := "00:10:00" }
    (by decide)

theorem splitFirst_of_nmem (sep : Char) (t : List Char) (ht : sep ∉ t) :
    splitFirst sep t = (t, none) := by
  induction t with
  | nil => rfl
  | cons c rest ih =>
    have hc : c ≠ sep := fun he => ht (he ▸ List.mem_cons_self c rest)
    rw [splitFirst, if_neg hc]
    rw [ih (fun hm => ht (List.mem_cons_of_mem c hm))]

theorem splitFirst_append (sep : Char) (t r : List Char) (ht : sep ∉ t) :
    splitFirst sep (t ++ sep :: r) = (t, some r) := by
  induction t with
  | nil => simp [splitFirst]
  | cons c rest ih =>
    have hc : c ≠ sep := fun he => ht (he ▸ List.mem_cons_self c rest)
    rw [List.cons_append, splitFirst, if_neg hc]
    rw [ih (fun hm => ht (List.mem_cons_of_mem c hm))]

theorem pySplitN_three (sep : Char) (t1 t2 t3 rem : List Char)
    (h1 : sep ∉ t1) (h2 : sep ∉ t2) (h3 : sep ∉ t3) :
    pySplitN sep 3 (t1 ++ sep :: (t2 ++ sep :: (t3 ++ sep :: rem))) =
      [t1, t2, t3, rem] := by
  have e1 := splitFirst_append sep t1 (t2 ++ sep :: (t3 ++ sep :: rem)) h1
  have e2 := splitFirst_append sep t2 (t3 ++ sep :: rem) h2
  have e3 := splitFirst_append sep t3 rem h3
  simp [pySplitN, e1, e2, e3]

theorem dropWhile_eq_self_of_nmem (strip : List Char) (X : List Char)
    (h : ∀ c ∈ X, c ∉ strip) :
    X.dropWhile (fun c => decide (c ∈ strip)) = X := by
  cases X with
  | nil => rfl
  | cons c rest =>
    rw [List.dropWhile_cons,
      if_neg (by simpa using h c (List.mem_cons_self c rest))]

theorem stripChars_sandwich (strip : List Char) (a b f l : Char)
    (mid : List Char) (ha : a ∈ strip) (hb : b ∈ strip)
    (hf : f ∉ strip) (hl : l ∉ strip) :
    stripChars (a :: ((f :: (mid ++ [l])) ++ [b])) strip = f :: (mid ++ [l]) := by
  rw [stripChars]
  rw [List.dropWhile_cons, if_pos (by simpa using ha)]
  rw [List.cons_append, List.dropWhile_cons, if_neg (by simpa using hf)]
  rw [show f :: ((mid ++ [l]) ++ [b]) = (f :: (mid ++ [l])) ++ [b] from rfl]
  rw [List.reverse_append]
  rw [show ([b].reverse ++ (f :: (mid ++ [l])).reverse : List Char) =
    b :: (f :: (mid ++ [l])).reverse from rfl]
  rw [List.dropWhile_cons, if_pos (by simpa using hb)]
  rw [show f :: (mid ++ [l]) = (f :: mid) ++ [l] from rfl]
  rw [List.reverse_append]
  rw [show ([l].reverse ++ (f :: mid).reverse : List Char) =
    l :: (f :: mid).reverse from rfl]
  rw [List.dropWhile_cons, if_neg (by simpa using hl)]
  simp

theorem stripChars_quote_wrap (U : List Char) (hU : squote ∉ U) :
    stripChars (squote :: (U ++ [squote])) [squote] = U := by
  rw [stripChars]
  rw [List.dropWhile_cons, if_pos (by simp)]
  cases U with
  | nil => rfl
  | cons u rest =>
    have hu : u ∉ ([squote] : List Char) := by
      simp
      intro he
      exact hU (he ▸ List.mem_cons_self u rest)
    rw [List.cons_append, List.dropWhile_cons, if_neg (by simpa using hu)]
    rw [show u :: (rest ++ [squote]) = (u :: rest) ++ [squote] from rfl]
    rw [List.reverse_append]
    rw [show ([squote].reverse ++ (u :: rest).reverse : List Char) =
      squote :: (u :: rest).reverse from rfl]
    rw [List.dropWhile_cons, if_pos (by simp)]
    rw [dropWhile_eq_self_of_nmem [squote] (u :: rest).reverse
      (by
        intro c hc
        simp only [List.mem_reverse] at hc
        simp
        intro he
        exact hU (he ▸ hc))]
    simp

theorem host_token_single (h : Host)
    (hid : ' ' ∉ h.hostid.toList.map Char.toUpper) :
    host_token [h] =
      some (squote :: (h.host.toList.map Char.toUpper ++ [squote])) := by
  have u1 : Char.toUpper '[' = '[' := by decide
  have u2 : Char.toUpper ']' = ']' := by decide
  have u3 : Char.toUpper lbrace = lbrace := by decide
  have u4 : Char.toUpper rbrace = rbrace := by decide
  have u5 : Char.toUpper squote = squote := by decide
  have u6 : Char.toUpper ':' = ':' := by decide
  have u7 : Char.toUpper ' ' = ' ' := by decide
  have u8 : Char.toUpper ',' = ',' := by decide
  have u9 : List.map Char.toUpper "hostid".toList = "HOSTID".toList := by decide
  have u10 : List.map Char.toUpper "host".toList = "HOST".toList := by decide
  have hmap : (hostsReprChars [h]).map Char.toUpper =
      '[' :: ((lbrace :: ((squote :: (("HOSTID".toList ++ [squote, ':', ' ', squote] ++
          h.hostid.toList.map Char.toUpper ++ [squote, ',', ' ', squote] ++
          "HOST".toList ++ [squote, ':', ' ', squote] ++
          h.host.toList.map Char.toUpper) ++ [squote])) ++ [rbrace])) ++ [']']) := by
    simp [hostsReprChars, hostDictChars, List.intercalate, u1, u2, u3, u4, u5,
      u6, u7, u8, u9, u10]
  simp only [host_token]
  rw [hmap]
  rw [stripChars_sandwich ['[', ']'] '[' ']' lbrace rbrace _
    (by decide) (by decide) (by decide) (by decide)]
  rw [stripChars_sandwich [lbrace, rbrace] lbrace rbrace squote squote _
    (by decide) (by decide) (by decide) (by decide)]
  have hshape : squote :: (("HOSTID".toList ++ [squote, ':', ' ', squote] ++
      h.hostid.toList.map Char.toUpper ++ [squote, ',', ' ', squote] ++
      "HOST".toList ++ [squote, ':', ' ', squote] ++
      h.host.toList.map Char.toUpper) ++ [squote]) =
      (squote :: ("HOSTID".toList ++ [squote, ':'])) ++ ' ' ::
        ((squote :: (h.hostid.toList.map Char.toUpper ++ [squote, ','])) ++ ' ' ::
          ((squote :: ("HOST".toList ++ [squote, ':'])) ++ ' ' ::
            (squote :: (h.host.toList.map Char.toUpper ++ [squote])))) := by
    simp [List.append_assoc]
  rw [hshape]
  rw [pySplitN_three ' ' _ _ _ _
    (by decide)
    (by
      intro hmem
      simp only [List.mem_cons, List.mem_append] at hmem
      rcases hmem with h1 | h1
      · exact absurd h1 (by decide)
      · rcases h1 with h1 | h1
        · exact hid h1
        · exact absurd h1 (by decide))
    (by decide)]
  rfl

theorem hostExtract_single (h : Host)
    (hid : ' ' ∉ h.hostid.toList.map Char.toUpper)
    (hhost : squote ∉ h.host.toList.map Char.toUpper) :
    hostExtract [h] = some (String.mk (h.host.toList.map Char.toUpper)) := by
  rw [hostExtract, host_token_single h hid]
  simp only [Option.map_some']
  rw [stripChars_quote_wrap _ hhost]

theorem wellShaped_facts (h : Host) (hs : wellShapedHost h = true) :
    ' ' ∉ h.hostid.toList.map Char.toUpper ∧
    squote ∉ h.host.toList.map Char.toUpper := by
  simp only [wellShapedHost, Bool.and_eq_true, List.all_eq_true] at hs
  obtain ⟨hid, hhost⟩ := hs
  constructor
  · intro hmem
    obtain ⟨c, hc, he⟩ := List.mem_map.mp hmem
    have hcc := hid c hc
    simp only [Bool.and_eq_true, decide_eq_true_eq] at hcc
    exact toUpper_ne c ' ' (Or.inl (by decide)) hcc.2 he
  · intro hmem
    obtain ⟨c, hc, he⟩ := List.mem_map.mp hmem
    have hcc := hhost c hc
    simp only [hostCharOk, Bool.and_eq_true, decide_eq_true_eq] at hcc
    exact toUpper_ne c squote (Or.inl (by decide)) hcc.1.2 he

/-- C5: for a correlated record whose `hosts` field holds exactly one
descriptor in the expected serialized shape (`wellShapedHost`), the
serialize–upper-case–strip–split pipeline puts the quoted display name
in the 4th whitespace token (index 3), and the output `hosts` value is
the display name upper-cased with its surrounding quote characters
stripped; the row survives into the host-adjusted frame with exactly
that value. -/
theorem c5_single_host_extraction (rows : List ResolvedEvent)
    (r : ResolvedEvent) (h : Host) (hr : r ∈ rows) (hh : r.hosts = [h])
    (hshape : wellShapedHost h = true) :
    host_token [h] =
        some (squote :: (h.host.toList.map Char.toUpper ++ [squote])) ∧
    hostExtract [h] = some (String.mk (h.host.toList.map Char.toUpper)) ∧
    host_series_adjustment rows = Except.ok (hostAdjustRows rows) ∧
    ({ eventid := r.eventid, clock := r.clock, severity := r.severity,
       hosts := String.mk (h.host.toList.map Char.toUpper), name := r.name,
       rts_clock := r.rts_clock } : HostAdjusted) ∈ hostAdjustRows rows := by
  obtain ⟨hid, hhost⟩ := wellShaped_facts h hshape
  have hex := hostExtract_single h hid hhost
  have hsome : (host_token r.hosts).isSome = true := by
    rw [hh, host_token_single h hid]
    rfl
  refine ⟨host_token_single h hid, hex,
    host_series_adjustment_ok_of_mem rows r hr hsome, ?_⟩
  rw [hostAdjustRows]
  apply List.mem_filterMap.mpr
  refine ⟨r, hr, ?_⟩
  rw [hh, hex]
  rfl

/-- Witness for C5: the descriptor `{hostid: "10084", host: "HostA"}`
yields the upper-cased host name, and the row survives into the
host-adjusted frame. -/
theorem c5_single_host_extraction_witness :
    hostExtract [{ hostid := "10084", host := "HostA" }] =
        some (String.mk ("HostA".toList.map Char.toUpper)) ∧
    host_series_adjustment
        [{ eventid := 5, clock := 100, r_eventid := 6, severity := "2",
           hosts := [{ hostid := "10084", host := "HostA" }], name := "w",
           r_clock := 150, rts_clock := 50 }] =
      Except.ok (hostAdjustRows
        [{ eventid := 5, clock := 100, r_eventid := 6, severity := "2",
           hosts := [{ hostid := "10084", host := "HostA" }], name := "w",
           r_clock := 150, rts_clock := 50 }]) ∧
    ({ eventid := 5, clock := 100, severity := "2",
       hosts := String.mk ("HostA".toList.map Char.toUpper), name := "w",
       rts_clock := 50 } : HostAdjusted) ∈
      hostAdjustRows
        [{ eventid := 5, clock := 100, r_eventid := 6, severity := "2",
           hosts := [{ hostid := "10084", host := "HostA" }], name := "w",
           r_clock := 150, rts_clock := 50 }] := by
  have hc5 := c5_single_host_extraction
    [{ eventid := 5, clock := 100, r_eventid := 6, severity := "2",
       hosts := [{ hostid := "10084", host := "HostA" }], name := "w",
       r_clock := 150, rts_clock := 50 }]
    { eventid := 5, clock := 100, r_eventid := 6, severity := "2",
      hosts := [{ hostid := "10084", host := "HostA" }], name := "w",
      r_clock := 150, rts_clock := 50 }
    { hostid := "10084", host := "HostA" }
    (List.mem_cons_self _ _) rfl (by decide)
  exact ⟨hc5.2.1, hc5.2.2.1, hc5.2.2.2⟩
